import Mathlib

/-!
# Verification of the environment/configuration resolution and page-abstraction layer

Shallow embedding of the TypeScript test-automation repository, covering:

* `src/utils/config-manager.ts` — environment resolution
  (`determineEnvironmentWithFallback`, `parseCommandLineArgument`,
  `validateConfigStructure`, `getFullBaseUrl`, `getTimeout`,
  `getConfig` / `getAllEnvironments`);
* the `BasePage` page abstraction (`getText`, `isVisible`,
  `waitForElement`) from the page-object files;
* the `LoginPage.hasFormElements` checks (both the simple-selector variant
  in `src/pages/login-page.ts` and the union-selector variant);
* CSV generation for the pull-request scraping scenario
  (`generateCSV`, `exportPullRequestsToCSV` in
  `src/tests/test-case-4-github-pr.spec.ts`).

JavaScript strings are modelled as `List Char` (abbreviated `Str`); concrete
literals are written with `String.data`.  JavaScript objects whose reference
identity matters (for the shallow-copy claims) are modelled with an explicit
address heap; elsewhere records and association lists are used, preserving
JavaScript object insertion order.
-/

/-- JavaScript strings, modelled as lists of characters. -/
abbrev Str := List Char

/-- `Environment` interface of `config-manager.ts`:
`{ baseUrl, basePath, name : string, timeout?, retries? : number }`. -/
structure Environment where
  baseUrl : Str
  basePath : Str
  name : Str
  timeout : Option Int
  retries : Option Int
deriving Repr, DecidableEq

/-- `TestConfig` interface: environments record (insertion-ordered association
list), the github example-repo URL, and the demo credentials. -/
structure TestConfig where
  environments : List (Str × Environment)
  githubExampleRepo : Str
  credentialsDemo : Option (Str × Str)
deriving Repr, DecidableEq

/-- JavaScript object property lookup `config.environments[name]`. -/
def lookupEnv (cfg : TestConfig) (name : Str) : Option Environment :=
  cfg.environments.lookup name

/-- Errors thrown by `ConfigManager` (all are `throw new Error(...)` in the
source; we distinguish them by site). -/
inductive ConfigError where
  | noValidEnvironments
  | invalidFullUrl
  | environmentNotFound (name : Str)
deriving Repr, DecidableEq

/-- `String.prototype.split(sep)` for a single-character separator. -/
def splitOnChar (sep : Char) : Str → List Str
  | [] => [[]]
  | c :: rest =>
    match splitOnChar sep rest with
    | [] => if c = sep then [[], []] else [[c]]
    | h :: t => if c = sep then [] :: h :: t else (c :: h) :: t

/-- `parseCommandLineArgument`: find the first argv entry starting with
`--env=` and return the piece after the first `=`
(`envArg?.split('=')[1]`). -/
def parseCommandLineArgument (argv : List Str) : Option Str :=
  match argv.find? (fun a => ("--env=".data).isPrefixOf a) with
  | some envArg => (splitOnChar '=' envArg).get? 1
  | none => none

/-- One pass of the strategy loop in `determineEnvironmentWithFallback`:
return the first strategy value that is truthy (defined and non-empty) and
names a configured environment. -/
def firstStrategyMatch (cfg : TestConfig) : List (Option Str) → Option Str
  | [] => none
  | v :: rest =>
    match v with
    | some s =>
      if s ≠ [] ∧ (lookupEnv cfg s).isSome then some s
      else firstStrategyMatch cfg rest
    | none => firstStrategyMatch cfg rest

/-- `determineEnvironmentWithFallback`: the ordered strategies are
`TEST_ENV`, the `--env=` command-line argument, `PLAYWRIGHT_ENV`, `NODE_ENV`,
the hard-coded `"production"`; if none names a configured environment, fall
back to the first environment key, and throw when there are no environments
at all. -/
def determineEnvironmentWithFallback (cfg : TestConfig)
    (testEnv cliEnvArg playwrightEnv nodeEnv : Option Str) :
    Except ConfigError Str :=
  match firstStrategyMatch cfg
      [testEnv, cliEnvArg, playwrightEnv, nodeEnv, some "production".data] with
  | some v => .ok v
  | none =>
    match cfg.environments with
    | [] => .error .noValidEnvironments
    | (fallbackEnv, _) :: _ => .ok fallbackEnv

instance {ε α : Type} [DecidableEq ε] [DecidableEq α] :
    DecidableEq (Except ε α) := fun a b =>
  match a, b with
  | .ok x, .ok y =>
    if h : x = y then .isTrue (by rw [h]) else .isFalse (by simp [h])
  | .error e, .error f =>
    if h : e = f then .isTrue (by rw [h]) else .isFalse (by simp [h])
  | .ok _, .error _ => .isFalse (by simp)
  | .error _, .ok _ => .isFalse (by simp)


/-- Validation issues pushed by `validateConfigStructure`; the source stores
message strings, which we abstract to tagged constructors. -/
inductive ValidationIssue where
  | missingBaseUrl (name : Str)
  | missingBasePath (name : Str)
  | invalidBaseUrlFormat (name : Str)
  | missingDisplayName (name : Str)
  | noCredentials
deriving Repr, DecidableEq

/-- `ConfigValidationResult` of `config-manager.ts`. -/
structure ConfigValidationResult where
  isValid : Bool
  errors : List ValidationIssue
  warnings : List ValidationIssue
deriving Repr, DecidableEq

/-- Per-environment checks of `validateConfigStructure`: missing/empty
`baseUrl` or `basePath` is an error, missing display `name` a warning, and a
non-empty `baseUrl` that the URL parser rejects an error.  `new URL` is the
host runtime's WHATWG parser, modelled by the oracle `isValidUrl`. -/
def validateEnvEntry (isValidUrl : Str → Bool) (nm : Str) (env : Environment) :
    List ValidationIssue × List ValidationIssue :=
  let e1 := if env.baseUrl = [] then [ValidationIssue.missingBaseUrl nm] else []
  let e2 := if env.basePath = [] then [ValidationIssue.missingBasePath nm] else []
  let w1 := if env.name = [] then [ValidationIssue.missingDisplayName nm] else []
  let e3 :=
    if env.baseUrl ≠ [] ∧ ¬ isValidUrl env.baseUrl then
      [ValidationIssue.invalidBaseUrlFormat nm]
    else []
  (e1 ++ e2 ++ e3, w1)

/-- `validateConfigStructure`: collect the per-environment errors and
warnings, warn when credentials are absent; `isValid` holds exactly when no
error was pushed.  (The `typeof` shape checks of the source are vacuous in
the typed model.) -/
def validateConfigStructure (isValidUrl : Str → Bool) (cfg : TestConfig) :
    ConfigValidationResult :=
  let perEnv := cfg.environments.map (fun p => validateEnvEntry isValidUrl p.1 p.2)
  let errors := (perEnv.map Prod.fst).flatten
  let warnings := (perEnv.map Prod.snd).flatten ++
    (if cfg.credentialsDemo.isNone then [ValidationIssue.noCredentials] else [])
  ⟨errors.isEmpty, errors, warnings⟩

/-- The state of a constructed `ConfigManager`: the loaded configuration and
the resolved current environment name. -/
structure ConfigManagerState where
  config : TestConfig
  currentEnvironment : Str
deriving Repr, DecidableEq

/-- `getCurrentEnvironment`: look the current name up in the configuration,
throwing when absent. -/
def getCurrentEnvironment (st : ConfigManagerState) : Except ConfigError Environment :=
  match lookupEnv st.config st.currentEnvironment with
  | some env => .ok env
  | none => .error (.environmentNotFound st.currentEnvironment)

/-- `baseUrl.replace(/\/$/, '')`: drop a single trailing slash if present. -/
def stripTrailingSlash (s : Str) : Str :=
  if s.getLast? = some '/' then s.dropLast else s

/-- `basePath.startsWith('/') ? basePath : '/' + basePath`. -/
def ensureLeadingSlash (p : Str) : Str :=
  if p.head? = some '/' then p else '/' :: p

/-- The URL concatenation performed by `getFullBaseUrl`:
trailing slash stripped from `baseUrl`, leading slash enforced on
`basePath`, then plain concatenation.  (The subsequent `new URL` validity
re-check does not alter the string.) -/
def fullBaseUrlOf (baseUrl basePath : Str) : Str :=
  stripTrailingSlash baseUrl ++ ensureLeadingSlash basePath

/-- `getFullBaseUrl`: build the normalized URL for the current environment
and fail with a configuration error when the result is not a well-formed
URL according to the host parser `isValidUrl`. -/
def getFullBaseUrl (isValidUrl : Str → Bool) (st : ConfigManagerState) :
    Except ConfigError Str := do
  let env ← getCurrentEnvironment st
  let fullUrl := fullBaseUrlOf env.baseUrl env.basePath
  if isValidUrl fullUrl then pure fullUrl else throw .invalidFullUrl

/-- `getTimeout`: `env.timeout || 30000` — the JavaScript `||` treats the
number `0` (and an absent field) as falsy. -/
def getTimeout (st : ConfigManagerState) : Except ConfigError Int := do
  let env ← getCurrentEnvironment st
  match env.timeout with
  | some t => if t = 0 then pure 30000 else pure t
  | none => pure 30000


/-! ## Page abstraction (`BasePage`) -/

/-- A browser page, abstracted to what the page-object layer observes:
whether the first element matching a selector string is visible, and the
`textContent` of the first match (`none` both when no element matches and
when the DOM reports a null text). -/
structure PageState where
  visible : Str → Bool
  textContent : Str → Option Str

/-- Failures raised by the page abstraction. -/
inductive PageError where
  | elementNotFound (selector : Str) (timeoutMs : Nat)
deriving Repr, DecidableEq

/-- `page.waitForSelector(selector, { state: 'visible', timeout })`: succeeds
when a matching element is visible, otherwise raises after `timeout`
milliseconds. -/
def waitForSelectorVisible (pg : PageState) (selector : Str) (timeoutMs : Nat) :
    Except PageError Unit :=
  if pg.visible selector then .ok () else .error (.elementNotFound selector timeoutMs)

/-- `BasePage.waitForElement(selector, timeout = 5000)`. -/
def waitForElement (pg : PageState) (selector : Str) : Except PageError Unit :=
  waitForSelectorVisible pg selector 5000

/-- `BasePage.getText(selector)`: wait for visibility, then
`await this.page.textContent(selector) || ''`. -/
def getText (pg : PageState) (selector : Str) : Except PageError Str := do
  waitForElement pg selector
  pure ((pg.textContent selector).getD [])

/-- `BasePage.isVisible(selector)`: probe with a 1000 ms wait inside
`try { ... return true } catch { return false }`; the rejection of the inner
wait is caught, so the method itself always resolves to a boolean. -/
def isVisible (pg : PageState) (selector : Str) : Except PageError Bool :=
  match waitForSelectorVisible pg selector 1000 with
  | .ok _ => .ok true
  | .error _ => .ok false

/-- JavaScript `String.prototype.trim` (used here only to state the spec's
"trimmed" reading of `getText`). -/
def jsTrim (s : Str) : Str :=
  (s.dropWhile Char.isWhitespace).reverse.dropWhile Char.isWhitespace |>.reverse

/-! ## Login page views -/

/-- Selector constants of `src/pages/login-page.ts` (simple variant). -/
def simpleUsernameSelector : Str := "#username".data
def simplePasswordSelector : Str := "#password".data
def simpleLoginButtonSelector : Str := "input[type=\"submit\"]".data

/-- `LoginPage.hasFormElements` of `src/pages/login-page.ts`: the conjunction
of the three awaited `isVisible` probes. -/
def hasFormElementsSimple (pg : PageState) : Except PageError Bool := do
  let hasUsername ← isVisible pg simpleUsernameSelector
  let hasPassword ← isVisible pg simplePasswordSelector
  let hasButton ← isVisible pg simpleLoginButtonSelector
  pure (hasUsername && hasPassword && hasButton)

/-- Union selector constants of the `LoginPage` variant in the unnamed
page-object file (part_000). -/
def unionUsernameSelector : Str :=
  ("#username, input[name=\"username\"], input[name=\"email\"], " ++
   "input[type=\"email\"], input[placeholder*=\"username\"], " ++
   "input[placeholder*=\"email\"]").data
def unionPasswordSelector : Str :=
  ("#password, input[name=\"password\"], input[type=\"password\"], " ++
   "input[placeholder*=\"password\"]").data
def unionLoginButtonSelector : Str :=
  "input[type=\"submit\"], button[type=\"submit\"], .login-button, #login-button".data

/-- `LoginPage.hasFormElements` of the union-selector variant:
`(hasUsername && hasPassword && hasButton) || hasAnyLoginForm`, where
`hasAnyLoginForm` is the visibility of any `form` together with any
`input[type="password"]`.  The `locator(...).first().isVisible()` probes are
immediate visibility checks on the page. -/
def hasFormElementsUnion (pg : PageState) : Except PageError Bool :=
  let hasUsername := pg.visible unionUsernameSelector
  let hasPassword := pg.visible unionPasswordSelector
  let hasButton := pg.visible unionLoginButtonSelector
  let hasAnyLoginForm := pg.visible "form".data && pg.visible "input[type=\"password\"]".data
  pure ((hasUsername && hasPassword && hasButton) || hasAnyLoginForm)

/-! ## CSV generation (`test-case-4-github-pr.spec.ts`) -/

/-- `PullRequest` interface: `{ name, createdDate, author : string }`. -/
structure PullRequest where
  name : Str
  createdDate : Str
  author : Str
deriving Repr, DecidableEq

/-- `s.replace(/"/g, '""')` — double every double-quote character.  Applied
during extraction to the `name` and `author` fields only. -/
def escapeQuotes : Str → Str
  | [] => []
  | c :: rest =>
    if c = '"' then '"' :: '"' :: escapeQuotes rest else c :: escapeQuotes rest

/-- A template piece `"${x}"`: the field wrapped in double quotes. -/
def quoteField (s : Str) : Str := '"' :: (s ++ ['"'])

/-- One row of `generateCSV`: `"${pr.name}","${pr.createdDate}","${pr.author}"`. -/
def generateCSVRow (pr : PullRequest) : Str :=
  quoteField pr.name ++ ',' :: quoteField pr.createdDate ++ ',' :: quoteField pr.author

/-- `Array.prototype.join('\n')`. -/
def joinNewline : List Str → Str
  | [] => []
  | [l] => l
  | l :: ls => l ++ '\n' :: joinNewline ls

/-- `generateCSV`: `[headers, ...rows].join('\n')` with header row
`PR Name,Created Date,Author`. -/
def generateCSV (prs : List PullRequest) : Str :=
  joinNewline ("PR Name,Created Date,Author".data :: prs.map generateCSVRow)

/-- One row of `exportPullRequestsToCSV`:
`"${pr.name}","${pr.author}","${pr.createdDate}"` — note the author/date
order differs from `generateCSV`. -/
def exportCSVRow (pr : PullRequest) : Str :=
  quoteField pr.name ++ ',' :: quoteField pr.author ++ ',' :: quoteField pr.createdDate

/-- The file content written by `exportPullRequestsToCSV`:
`csvHeader + csvContent` where `csvHeader = 'PR Name,Author,Created Date\n'`
and `csvContent` joins the rows with newlines. -/
def exportCSVFileContent (prs : List PullRequest) : Str :=
  "PR Name,Author,Created Date\n".data ++ joinNewline (prs.map exportCSVRow)

/-- CSV reader for one double-quoted field body (the opening quote already
consumed): a doubled `""` is an escaped quote belonging to the field, a lone
`"` closes the field; returns the unescaped field and the remaining input. -/
def parseQuotedFieldBody : Str → Option (Str × Str)
  | [] => none
  | c :: rest =>
    if c = '"' then
      match rest with
      | [] => some ([], [])
      | c2 :: rest2 =>
        if c2 = '"' then (parseQuotedFieldBody rest2).map (fun p => ('"' :: p.1, p.2))
        else some ([], rest)
    else (parseQuotedFieldBody rest).map (fun p => (c :: p.1, p.2))

/-- CSV reader for the separator between two quoted fields: a comma followed
by the next field's opening quote. -/
def expectCommaQuote : Str → Option Str
  | ',' :: '"' :: rest => some rest
  | _ => none

/-- CSV reader for a full three-field quoted row `"f1","f2","f3"`: unquote
each field, undoubling escaped quotes; the row must be consumed entirely. -/
def parseCSVRow (s : Str) : Option (Str × Str × Str) :=
  match s with
  | '"' :: body =>
    (parseQuotedFieldBody body).bind (fun p1 =>
      (expectCommaQuote p1.2).bind (fun r1 =>
        (parseQuotedFieldBody r1).bind (fun p2 =>
          (expectCommaQuote p2.2).bind (fun r2 =>
            (parseQuotedFieldBody r2).bind (fun p3 =>
              if p3.2 = [] then some (p1.1, p2.1, p3.1) else none)))))
  | _ => none


/-! ## Object heap model for `getConfig` / `getAllEnvironments`

The spread copies `{ ...this.config }` and `{ ...this.config.environments }`
allocate a fresh top-level object holding the same property values (which,
for object-valued properties, are references).  We model object references
as numeric addresses: `dictHeap` holds record objects (property name ↦
address), `envHeap` holds the `Environment` leaf objects. -/

abbrev Addr := Nat

/-- The mutable object store of the running process, together with the
manager's two stored references: `configObjAddr` is `this.config` (a record
whose `environments` property holds `envsDictAddr`), and `envsDictAddr` is
`this.config.environments` (a record mapping environment names to
`Environment` object addresses). -/
structure ObjectStore where
  dictHeap : List (Addr × List (Str × Addr))
  envHeap : List (Addr × Environment)
  configObjAddr : Addr
  envsDictAddr : Addr
deriving Repr, DecidableEq

/-- Read the record object at an address. -/
def readDict (st : ObjectStore) (a : Addr) : Option (List (Str × Addr)) :=
  st.dictHeap.lookup a

/-- An address unused by any record object in the store. -/
def freshDictAddr (st : ObjectStore) : Addr :=
  (st.dictHeap.map Prod.fst).foldr max 0 + 1

/-- The spread copy `{ ...obj }`: allocate a fresh record object whose
property list equals the source object's, and return its reference. -/
def spreadCopy (st : ObjectStore) (src : Addr) : ObjectStore × Addr :=
  let a := freshDictAddr st
  ({ st with dictHeap := (a, (readDict st src).getD []) :: st.dictHeap }, a)

/-- `getConfig()`: `return { ...this.config }`. -/
def getConfigOp (st : ObjectStore) : ObjectStore × Addr :=
  spreadCopy st st.configObjAddr

/-- `getAllEnvironments()`: `return { ...this.config.environments }`. -/
def getAllEnvironmentsOp (st : ObjectStore) : ObjectStore × Addr :=
  spreadCopy st st.envsDictAddr

/-- JavaScript property assignment `obj[k] = v` on a record object: replace
the value of an existing key in place, or append a new key. -/
def setKey (o : List (Str × Addr)) (k : Str) (v : Addr) : List (Str × Addr) :=
  if (o.lookup k).isSome then
    o.map (fun p => if p.1 = k then (k, v) else p)
  else o ++ [(k, v)]

/-- JavaScript `delete obj[k]` on a record object. -/
def delKey (o : List (Str × Addr)) (k : Str) : List (Str × Addr) :=
  o.filter (fun p => ¬ p.1 = k)

/-- A client-side top-level mutation of a record object: add, reassign, or
remove a property. -/
inductive TopMutation where
  | assign (k : Str) (v : Addr)
  | remove (k : Str)
deriving Repr, DecidableEq

/-- The effect of a top-level mutation on one record object. -/
def applyTopMutation (m : TopMutation) (o : List (Str × Addr)) : List (Str × Addr) :=
  match m with
  | .assign k v => setKey o k v
  | .remove k => delKey o k

/-- Apply a top-level mutation to the record object stored at address `a`. -/
def mutateDictAt (st : ObjectStore) (a : Addr) (m : TopMutation) : ObjectStore :=
  { st with
    dictHeap := st.dictHeap.map (fun p =>
      if p.1 = a then (p.1, applyTopMutation m p.2) else p) }


/-! ## Concrete fixtures used by witnesses and counterexamples -/

/-- A configuration with two environments `a` and `b`. -/
def cfgAB : TestConfig :=
  ⟨[(['a'], ⟨"https://a.example".data, "/".data, ['a'], none, none⟩),
    (['b'], ⟨"https://b.example".data, "/".data, ['b'], none, none⟩)], [], none⟩

/-- A configuration whose only environments are `staging` and `production`. -/
def cfgStaging : TestConfig :=
  ⟨[("staging".data, ⟨"https://staging.example".data, "/app".data, "Staging".data, none, none⟩),
    ("production".data, ⟨"https://prod.example".data, "/app".data, "Production".data, none, none⟩)],
   [], some ("demouser".data, "fashion123".data)⟩

/-- A configuration document with zero environments. -/
def cfgEmpty : TestConfig := ⟨[], [], none⟩

/-- Manager state whose current environment has an explicit timeout of `0`. -/
def stTimeoutZero : ConfigManagerState :=
  ⟨⟨[(['z'], ⟨"https://z.example".data, "/".data, ['z'], some 0, none⟩)], [], none⟩, ['z']⟩

/-- Manager state whose current environment has an explicit timeout of `5000`. -/
def stTimeout5000 : ConfigManagerState :=
  ⟨⟨[(['t'], ⟨"https://t.example".data, "/".data, ['t'], some 5000, none⟩)], [], none⟩, ['t']⟩

/-- A page whose only matching selector is `h1`, with text content
`"  hi  "` (surrounding whitespace present). -/
def textPage : PageState :=
  ⟨fun s => s == "h1".data,
   fun s => if s == "h1".data then some "  hi  ".data else none⟩

/-- A page with a visible `form` and a visible `input[type="password"]`
but no visible match for any of the login selectors. -/
def formOnlyPage : PageState :=
  ⟨fun s => s == "form".data || s == "input[type=\"password\"]".data, fun _ => none⟩

/-- A page on which nothing is visible and no element matches anything. -/
def emptyPage : PageState := ⟨fun _ => false, fun _ => none⟩

/-- A concrete object store: the config record at address `0` (with its
`environments` property at address `1`), one environment object at `10`. -/
def storeForCopy : ObjectStore :=
  ⟨[(0, [("environments".data, 1)]), (1, [("production".data, 10)])],
   [(10, ⟨"https://prod.example".data, "/app".data, "Production".data, none, none⟩)], 0, 1⟩

/-- A concrete client-side mutation: assign a new key on the copied record. -/
def extraMutation : TopMutation := .assign "extra".data 99

/-! # Theorems

General-purpose lemmas first, then one theorem (with a witness or a
counterexample where required) per specification claim. -/

theorem bindOk {ε α β : Type} (a : α) (f : α → Except ε β) :
    (Except.ok a >>= f : Except ε β) = f a := rfl

theorem pureOk {ε α : Type} (a : α) : (pure a : Except ε α) = .ok a := rfl

theorem bindError {ε α β : Type} (e : ε) (f : α → Except ε β) :
    (Except.error e >>= f : Except ε β) = .error e := rfl

theorem lookup_eq_some_mem {α β : Type} [BEq α] [LawfulBEq α] :
    ∀ {l : List (α × β)} {k : α} {v : β}, l.lookup k = some v → (k, v) ∈ l := by
  intro l
  induction l with
  | nil => intro k v h; simp [List.lookup] at h
  | cons p t ih =>
    intro k v h
    obtain ⟨a, b⟩ := p
    by_cases hk : (k == a) = true
    · have hka : k = a := eq_of_beq hk
      subst hka
      simp [List.lookup] at h
      subst h
      exact List.mem_cons_self _ _
    · simp [List.lookup, hk] at h
      exact List.mem_cons_of_mem _ (ih h)

theorem lookup_isSome_of_mem_keys {α β : Type} [BEq α] [LawfulBEq α] :
    ∀ {l : List (α × β)} {k : α}, k ∈ l.map Prod.fst → (l.lookup k).isSome := by
  intro l
  induction l with
  | nil => intro k h; simp at h
  | cons p t ih =>
    intro k h
    obtain ⟨a, b⟩ := p
    by_cases hk : (k == a) = true
    · simp [List.lookup, hk]
    · have hk' : (k == a) = false := by simpa using hk
      simp only [List.lookup, hk']
      rcases List.mem_cons.mp h with h1 | h1
      · exact absurd (by simp [h1] : (k == a) = true) hk
      · exact ih h1

theorem firstStrategyMatch_some_isSome (cfg : TestConfig) :
    ∀ (l : List (Option Str)) (v : Str),
      firstStrategyMatch cfg l = some v → (lookupEnv cfg v).isSome := by
  intro l
  induction l with
  | nil => intro v h; simp [firstStrategyMatch] at h
  | cons o t ih =>
    intro v h
    cases o with
    | none => exact ih v (by simpa [firstStrategyMatch] using h)
    | some s =>
      by_cases hc : s ≠ [] ∧ (lookupEnv cfg s).isSome
      · simp [firstStrategyMatch, hc] at h
        exact h ▸ hc.2
      · simp only [firstStrategyMatch, if_neg hc] at h
        exact ih v h

theorem firstStrategyMatch_none_of_no_envs (cfg : TestConfig)
    (hcfg : cfg.environments = []) :
    ∀ l : List (Option Str), firstStrategyMatch cfg l = none := by
  intro l
  induction l with
  | nil => rfl
  | cons o t ih =>
    cases o with
    | none => simpa [firstStrategyMatch] using ih
    | some s =>
      have hl : lookupEnv cfg s = none := by simp [lookupEnv, hcfg]
      simp [firstStrategyMatch, hl, ih]

/-- C2: environment resolution is total — for every configuration document
with at least one environment, `determineEnvironmentWithFallback` returns a
name whose entry is present in the document (hence `resolve()` returns an
environment of the document), and for a document with zero environments it
fails with the no-valid-environments configuration error. -/
theorem claim2_resolution_total (isValidUrl : Str → Bool) (cfg : TestConfig)
    (te cli pe ne : Option Str)
    (_hvalid : (validateConfigStructure isValidUrl cfg).isValid = true) :
    (cfg.environments ≠ [] →
      ∃ name env, determineEnvironmentWithFallback cfg te cli pe ne = .ok name ∧
        lookupEnv cfg name = some env ∧ (name, env) ∈ cfg.environments)
    ∧ (cfg.environments = [] →
      determineEnvironmentWithFallback cfg te cli pe ne = .error .noValidEnvironments) := by
  constructor
  · intro hne
    cases hm : firstStrategyMatch cfg [te, cli, pe, ne, some "production".data] with
    | some v =>
      have hs := firstStrategyMatch_some_isSome cfg _ v hm
      obtain ⟨env, henv⟩ := Option.isSome_iff_exists.mp hs
      exact ⟨v, env, by simp [determineEnvironmentWithFallback, hm], henv,
        lookup_eq_some_mem henv⟩
    | none =>
      cases hcfg : cfg.environments with
      | nil => exact absurd hcfg hne
      | cons p rest =>
        refine ⟨p.1, p.2, ?_, ?_, ?_⟩
        · simp [determineEnvironmentWithFallback, hm, hcfg]
        · simp [lookupEnv, hcfg, List.lookup]
        · exact List.mem_cons_self _ _
  · intro hcfg
    simp [determineEnvironmentWithFallback,
      firstStrategyMatch_none_of_no_envs cfg hcfg, hcfg]

/-- C2 witness: a one-environment document resolves to an entry of the
document; the empty document yields the configuration error. -/
theorem claim2_resolution_total_witness :
    (∃ name env,
      determineEnvironmentWithFallback cfgStaging none none none none = .ok name ∧
        lookupEnv cfgStaging name = some env ∧ (name, env) ∈ cfgStaging.environments)
    ∧ determineEnvironmentWithFallback cfgEmpty none none none none =
        .error .noValidEnvironments :=
  ⟨(claim2_resolution_total (fun _ => true) cfgStaging none none none none
      (by decide)).1 (by decide),
   (claim2_resolution_total (fun _ => true) cfgEmpty none none none none
      (by decide)).2 rfl⟩

/-- C7: with `TEST_ENV=staging` and a document containing `"staging"`,
resolution returns exactly the `"staging"` entry, whatever the `--env`
argument, `PLAYWRIGHT_ENV` and `NODE_ENV` hold — `TEST_ENV` is the first
strategy checked. -/
theorem claim7_testEnv_staging_wins (cfg : TestConfig) (envS : Environment)
    (cli pe ne : Option Str)
    (hs : lookupEnv cfg "staging".data = some envS) :
    determineEnvironmentWithFallback cfg (some "staging".data) cli pe ne =
      .ok "staging".data
    ∧ lookupEnv cfg "staging".data = some envS := by
  refine ⟨?_, hs⟩
  have hcond : "staging".data ≠ [] ∧ (lookupEnv cfg "staging".data).isSome :=
    ⟨by decide, by simp [hs]⟩
  simp [determineEnvironmentWithFallback, firstStrategyMatch, hcond]

/-- C7 witness: the two-environment staging/production document with
`TEST_ENV=staging` while `PLAYWRIGHT_ENV` and `NODE_ENV` name
`production`. -/
theorem claim7_testEnv_staging_wins_witness :
    determineEnvironmentWithFallback cfgStaging (some "staging".data)
        (some "production".data) (some "production".data) (some "production".data) =
      .ok "staging".data
    ∧ lookupEnv cfgStaging "staging".data =
        some ⟨"https://staging.example".data, "/app".data, "Staging".data, none, none⟩ :=
  claim7_testEnv_staging_wins cfgStaging
    ⟨"https://staging.example".data, "/app".data, "Staging".data, none, none⟩
    (some "production".data) (some "production".data) (some "production".data)
    (by decide)

/-- C1 counterexample: with both environments `a` and `b` configured,
passing `--env=a` on the command line while `TEST_ENV=b` makes resolution
return `b`, not the command-line value `a` — the explicit command-line
override does **not** come first. -/
theorem claim1_cex_testEnv_beats_cli :
    determineEnvironmentWithFallback cfgAB (some ['b'])
        (parseCommandLineArgument ["--env=a".data]) none none = .ok ['b']
    ∧ (Except.ok ['b'] : Except ConfigError Str) ≠ .ok ['a'] := by
  decide

/-- C1 (amended): resolution checks the dedicated `TEST_ENV` variable
*before* the `--env` command-line override, then `PLAYWRIGHT_ENV` and
`NODE_ENV`; so when `--env=A` is passed and `TEST_ENV=B` and both name
configured environments, resolution returns `B`, while with `TEST_ENV`
unset the command-line value `A` does win over `PLAYWRIGHT_ENV=B`. -/
theorem claim1_amended_resolution_order (cfg : TestConfig) (A B : Str)
    (envA envB : Environment) (pe ne : Option Str)
    (hA : A ≠ []) (hB : B ≠ [])
    (hlA : lookupEnv cfg A = some envA) (hlB : lookupEnv cfg B = some envB) :
    determineEnvironmentWithFallback cfg (some B) (some A) pe ne = .ok B
    ∧ determineEnvironmentWithFallback cfg none (some A) (some B) ne = .ok A := by
  constructor
  · have hcond : B ≠ [] ∧ (lookupEnv cfg B).isSome := ⟨hB, by simp [hlB]⟩
    simp [determineEnvironmentWithFallback, firstStrategyMatch, hcond]
  · have hcond : A ≠ [] ∧ (lookupEnv cfg A).isSome := ⟨hA, by simp [hlA]⟩
    simp [determineEnvironmentWithFallback, firstStrategyMatch, hcond]

/-- C1 witness: on the two-environment document, `TEST_ENV=b` beats
`--env=a`, and with `TEST_ENV` unset `--env=a` beats `PLAYWRIGHT_ENV=b`. -/
theorem claim1_amended_resolution_order_witness :
    determineEnvironmentWithFallback cfgAB (some ['b']) (some ['a']) none none = .ok ['b']
    ∧ determineEnvironmentWithFallback cfgAB none (some ['a']) (some ['b']) none = .ok ['a'] :=
  claim1_amended_resolution_order cfgAB ['a'] ['b']
    ⟨"https://a.example".data, "/".data, ['a'], none, none⟩
    ⟨"https://b.example".data, "/".data, ['b'], none, none⟩
    none none (by decide) (by decide) (by decide) (by decide)

/-- C6 counterexample: the claimed invariance fails for a `baseUrl` that
already ends in `/` — `replace(/\/$/, '')` strips only one slash, so
`("https://x.com/", "app")` and `("https://x.com/" + "/", "app")` resolve to
different strings. -/
theorem claim6_cex_double_slash :
    fullBaseUrlOf "https://x.com/".data "app".data = "https://x.com/app".data
    ∧ fullBaseUrlOf ("https://x.com/".data ++ "/".data) "app".data =
        "https://x.com//app".data
    ∧ "https://x.com/app".data ≠ "https://x.com//app".data := by
  decide

/-- C6 (amended): the slash normalization of `getFullBaseUrl` is invariant
under appending one `/` to `baseUrl` or prepending one `/` to `basePath`
provided the starting `baseUrl` does not already end with `/` and the
starting `basePath` does not already start with `/` (the spec's example
URLs satisfy this); with a `baseUrl` already ending in `/` the results
differ. -/
theorem claim6_amended_slash_normalization (b p : Str)
    (hb : b.getLast? ≠ some '/') (hp : p.head? ≠ some '/') :
    fullBaseUrlOf (b ++ ['/']) p = fullBaseUrlOf b p
    ∧ fullBaseUrlOf b ('/' :: p) = fullBaseUrlOf b p
    ∧ fullBaseUrlOf b p = b ++ '/' :: p := by
  have h1 : stripTrailingSlash (b ++ ['/']) = b := by
    simp [stripTrailingSlash, List.getLast?_concat, List.dropLast_concat]
  have h2 : stripTrailingSlash b = b := by
    simp [stripTrailingSlash, hb]
  have h3 : ensureLeadingSlash ('/' :: p) = '/' :: p := by
    simp [ensureLeadingSlash]
  have h4 : ensureLeadingSlash p = '/' :: p := by
    simp [ensureLeadingSlash, hp]
  refine ⟨?_, ?_, ?_⟩ <;> simp [fullBaseUrlOf, h1, h2, h3, h4]

/-- C6 witness: the spec's example — `baseUrl="https://x.com"`,
`basePath="app"` — is invariant under the two slash placements and yields
`https://x.com/app`. -/
theorem claim6_amended_slash_normalization_witness :
    fullBaseUrlOf ("https://x.com".data ++ ['/']) "app".data =
      fullBaseUrlOf "https://x.com".data "app".data
    ∧ fullBaseUrlOf "https://x.com".data ('/' :: "app".data) =
        fullBaseUrlOf "https://x.com".data "app".data
    ∧ fullBaseUrlOf "https://x.com".data "app".data =
        "https://x.com".data ++ '/' :: "app".data :=
  claim6_amended_slash_normalization "https://x.com".data "app".data
    (by decide) (by decide)

/-- C9: `getTimeout()` returns the current environment's configured timeout
when it is set and nonzero, and the 30000 default when the timeout is
absent — or explicitly configured as `0`, which `env.timeout || 30000`
treats as falsy and replaces. -/
theorem claim9_getTimeout_default (st : ConfigManagerState) (env : Environment)
    (t : Int) (h : getCurrentEnvironment st = .ok env) :
    (env.timeout = some t → t ≠ 0 → getTimeout st = .ok t)
    ∧ (env.timeout = none → getTimeout st = .ok 30000)
    ∧ (env.timeout = some 0 → getTimeout st = .ok 30000) := by
  refine ⟨?_, ?_, ?_⟩
  · intro ht htz
    simp [getTimeout, h, bindOk, pureOk, ht, htz]
  · intro ht
    simp [getTimeout, h, bindOk, pureOk, ht]
  · intro ht
    simp [getTimeout, h, bindOk, pureOk, ht]

/-- C9 witness: an explicit timeout of `5000` is honored, and an explicit
timeout of `0` is replaced by the `30000` default. -/
theorem claim9_getTimeout_default_witness :
    getTimeout stTimeout5000 = .ok 5000 ∧ getTimeout stTimeoutZero = .ok 30000 :=
  ⟨(claim9_getTimeout_default stTimeout5000
      ⟨"https://t.example".data, "/".data, ['t'], some 5000, none⟩ 5000
      (by decide)).1 (by decide) (by decide),
   (claim9_getTimeout_default stTimeoutZero
      ⟨"https://z.example".data, "/".data, ['z'], some 0, none⟩ 0
      (by decide)).2.2 (by decide)⟩

theorem isVisible_eq_ok_visible (pg : PageState) (sel : Str) :
    isVisible pg sel = .ok (pg.visible sel) := by
  by_cases h : pg.visible sel <;> simp [isVisible, waitForSelectorVisible, h]

/-- C3 counterexample: on a page whose `h1` has text content `"  hi  "`,
`getText` returns the raw text — the source has no `trim`, so the claimed
whitespace trimming does not happen. -/
theorem claim3_cex_getText_untrimmed :
    getText textPage "h1".data = .ok "  hi  ".data
    ∧ jsTrim "  hi  ".data = "hi".data
    ∧ (Except.ok "  hi  ".data : Except PageError Str) ≠ .ok "hi".data := by
  refine ⟨by decide, ?_, by decide⟩
  decide

/-- C3 (amended): `getText(selector)` waits for the element's visibility and
returns the element's text content **as-is** (the empty string when the DOM
reports none), without trimming surrounding whitespace; when no matching
element becomes visible it fails with the element-not-found error after the
default 5000 ms wait. -/
theorem claim3_amended_getText_raw (pg : PageState) (sel : Str) :
    (pg.visible sel = true → getText pg sel = .ok ((pg.textContent sel).getD []))
    ∧ (pg.visible sel = false →
        getText pg sel = .error (.elementNotFound sel 5000)) := by
  constructor <;> intro h <;>
    simp [getText, waitForElement, waitForSelectorVisible, h, bindOk, bindError, pureOk]

/-- C3 witness: on the concrete page the visible `h1`'s raw text (with its
surrounding whitespace) is returned, and a selector that never becomes
visible raises the element-not-found error. -/
theorem claim3_amended_getText_raw_witness :
    getText textPage "h1".data = .ok ((textPage.textContent "h1".data).getD [])
    ∧ getText textPage "h2".data = .error (.elementNotFound "h2".data 5000) :=
  ⟨(claim3_amended_getText_raw textPage "h1".data).1 (by decide),
   (claim3_amended_getText_raw textPage "h2".data).2 (by decide)⟩

/-- C8: `isVisible(selector)` never throws — it always resolves to the
boolean visibility of the selector; in particular, when nothing matching the
selector is visible, the inner 1000 ms wait rejects with the
element-not-found error, which the `catch` converts to the value `false`. -/
theorem claim8_isVisible_never_throws (pg : PageState) (sel : Str) :
    isVisible pg sel = .ok (pg.visible sel)
    ∧ (pg.visible sel = false →
        waitForSelectorVisible pg sel 1000 = .error (.elementNotFound sel 1000)
        ∧ isVisible pg sel = .ok false) := by
  refine ⟨isVisible_eq_ok_visible pg sel, fun h => ⟨?_, ?_⟩⟩
  · simp [waitForSelectorVisible, h]
  · simp [isVisible, waitForSelectorVisible, h]

/-- C8 witness: on a page where no selector matches anything, `isVisible`
returns `false` (and the inner wait's rejection carries the 1000 ms
timeout). -/
theorem claim8_isVisible_never_throws_witness :
    isVisible emptyPage "#missing".data = .ok (emptyPage.visible "#missing".data)
    ∧ waitForSelectorVisible emptyPage "#missing".data 1000 =
        .error (.elementNotFound "#missing".data 1000)
    ∧ isVisible emptyPage "#missing".data = .ok false :=
  ⟨(claim8_isVisible_never_throws emptyPage "#missing".data).1,
   ((claim8_isVisible_never_throws emptyPage "#missing".data).2 rfl).1,
   ((claim8_isVisible_never_throws emptyPage "#missing".data).2 rfl).2⟩

/-- C4 counterexample: on a page with a visible `form` and a visible
`input[type="password"]` but with none of the three login selectors
visible, the union-selector `hasFormElements` (part_000 variant of the
login view) still returns `true`, so it is not true that it returns `false`
whenever one of the three is not visible. -/
theorem claim4_cex_union_escape_hatch :
    hasFormElementsUnion formOnlyPage = .ok true
    ∧ formOnlyPage.visible unionLoginButtonSelector = false
    ∧ formOnlyPage.visible unionUsernameSelector = false := by
  refine ⟨by decide, by decide, by decide⟩

/-- C4 (amended): the simple-selector login view (`src/pages/login-page.ts`)
returns `true` exactly when the username, password and submit-button
selectors are all visible; the union-selector variant returns `true` exactly
when the three union selectors are all visible **or** a `form` and an
`input[type="password"]` are both visible — so the "all three visible"
characterization holds only for the simple variant. -/
theorem claim4_amended_hasFormElements (pg : PageState) :
    (hasFormElementsSimple pg = .ok true ↔
      pg.visible simpleUsernameSelector = true
      ∧ pg.visible simplePasswordSelector = true
      ∧ pg.visible simpleLoginButtonSelector = true)
    ∧ (hasFormElementsUnion pg = .ok true ↔
      ((pg.visible unionUsernameSelector = true
          ∧ pg.visible unionPasswordSelector = true
          ∧ pg.visible unionLoginButtonSelector = true)
        ∨ (pg.visible "form".data = true
          ∧ pg.visible "input[type=\x22password\x22]".data = true))) := by
  constructor
  · simp only [hasFormElementsSimple, isVisible_eq_ok_visible, bindOk, pureOk,
      Except.ok.injEq, Bool.and_eq_true]
    tauto
  · simp only [hasFormElementsUnion, pureOk, Except.ok.injEq, Bool.and_eq_true,
      Bool.or_eq_true]
    tauto

theorem escapeQuotes_eq_self {s : Str} (h : '"' ∉ s) : escapeQuotes s = s := by
  induction s with
  | nil => rfl
  | cons c t ih =>
    have hc : ¬ c = '"' := fun hc => h (hc ▸ List.mem_cons_self c t)
    have ht : '"' ∉ t := fun m => h (List.mem_cons_of_mem _ m)
    simp [escapeQuotes, hc, ih ht]

theorem parseQuotedFieldBody_escaped (s : Str) :
    ∀ rest : Str, rest.head? ≠ some '"' →
      parseQuotedFieldBody (escapeQuotes s ++ '"' :: rest) = some (s, rest) := by
  induction s with
  | nil =>
    intro rest hr
    cases rest with
    | nil => rfl
    | cons r rs =>
      have hr' : ¬ r = '"' := by simpa using hr
      simp [escapeQuotes, parseQuotedFieldBody, hr']
  | cons c t ih =>
    intro rest hr
    by_cases hc : c = '"'
    · subst hc
      simp [escapeQuotes, parseQuotedFieldBody, ih rest hr]
    · have hstep : parseQuotedFieldBody (c :: (escapeQuotes t ++ '"' :: rest)) =
          (parseQuotedFieldBody (escapeQuotes t ++ '"' :: rest)).map
            (fun p => (c :: p.1, p.2)) := by
        conv_lhs => rw [parseQuotedFieldBody.eq_def]
        dsimp only
        rw [if_neg hc]
      simp [escapeQuotes, hc, hstep, ih rest hr]

theorem joinNewline_cons (ls : List Str) (h : Str) :
    joinNewline (h :: ls) = h ++ (ls.map (fun l => '\n' :: l)).flatten := by
  induction ls generalizing h with
  | nil => simp [joinNewline]
  | cons l t ih =>
    simp [joinNewline, ih l]

theorem optBindSome {α β : Type} (a : α) (f : α → Option β) :
    (some a).bind f = f a := rfl

theorem expectCommaQuote_eq (r : Str) : expectCommaQuote (',' :: '"' :: r) = some r := rfl

theorem parseCSVRow_cons_quote (body : Str) :
    parseCSVRow ('"' :: body) =
      (parseQuotedFieldBody body).bind (fun p1 =>
        (expectCommaQuote p1.2).bind (fun r1 =>
          (parseQuotedFieldBody r1).bind (fun p2 =>
            (expectCommaQuote p2.2).bind (fun r2 =>
              (parseQuotedFieldBody r2).bind (fun p3 =>
                if p3.2 = [] then some (p1.1, p2.1, p3.1) else none))))) := rfl

theorem parseCSVRow_three (f1 f2 f3 : Str) :
    parseCSVRow ('"' :: (escapeQuotes f1 ++ '"' :: ',' :: '"' ::
        (escapeQuotes f2 ++ '"' :: ',' :: '"' :: (escapeQuotes f3 ++ '"' :: [])))) =
      some (f1, f2, f3) := by
  rw [parseCSVRow_cons_quote, parseQuotedFieldBody_escaped f1 _ (by simp), optBindSome,
    expectCommaQuote_eq, optBindSome,
    parseQuotedFieldBody_escaped f2 _ (by simp), optBindSome,
    expectCommaQuote_eq, optBindSome,
    parseQuotedFieldBody_escaped f3 _ (by simp), optBindSome]
  simp

theorem generateCSVRow_shape (pr : PullRequest) :
    generateCSVRow pr =
      '"' :: (pr.name ++ '"' :: ',' :: '"' ::
        (pr.createdDate ++ '"' :: ',' :: '"' :: (pr.author ++ '"' :: []))) := by
  simp [generateCSVRow, quoteField, List.append_assoc]

theorem exportCSVRow_shape (pr : PullRequest) :
    exportCSVRow pr =
      '"' :: (pr.name ++ '"' :: ',' :: '"' ::
        (pr.author ++ '"' :: ',' :: '"' :: (pr.createdDate ++ '"' :: []))) := by
  simp [exportCSVRow, quoteField, List.append_assoc]

/-- C5 counterexample: (i) `exportPullRequestsToCSV` writes the header
`PR Name,Author,Created Date` — not the claimed `PR Name,Created Date,Author`
— with fields reordered accordingly; (ii) the emitters perform no quote
escaping themselves: a record whose `name` field contains a double quote is
emitted verbatim by `generateCSV`, and parsing that row fails instead of
recovering the original fields. -/
theorem claim5_cex_header_and_escaping :
    exportCSVFileContent [⟨"fix".data, "Jan 1".data, "bob".data⟩] =
      "PR Name,Author,Created Date\n\"fix\",\"bob\",\"Jan 1\"".data
    ∧ "PR Name,Author,Created Date".data ≠ "PR Name,Created Date,Author".data
    ∧ parseCSVRow (generateCSVRow ⟨"a\"b".data, "d".data, "u".data⟩) = none := by
  refine ⟨by decide, by decide, by decide⟩

/-- C5 (amended): `generateCSV` emits the header row
`PR Name,Created Date,Author` followed by one double-quoted row per record
with fields in that column order, while `exportPullRequestsToCSV` uses the
header `PR Name,Author,Created Date` with author before date.  The emitters
apply no quote escaping themselves; doubling is applied at extraction time
(to the `name` and `author` fields).  Consequently parsing recovers the
original fields exactly when the date field is quote-free and `name`/`author`
were passed through the extraction escaping — in particular for every record
whose fields contain no double quote. -/
theorem claim5_amended_csv_structure (prs : List PullRequest)
    (n d a n2 a2 : Str)
    (hd : '"' ∉ d) (hn : '"' ∉ n) (ha : '"' ∉ a) :
    generateCSV prs =
      "PR Name,Created Date,Author".data ++
        (prs.map (fun pr => '\n' :: generateCSVRow pr)).flatten
    ∧ parseCSVRow (generateCSVRow ⟨escapeQuotes n2, d, escapeQuotes a2⟩) =
        some (n2, d, a2)
    ∧ parseCSVRow (generateCSVRow ⟨n, d, a⟩) = some (n, d, a)
    ∧ parseCSVRow (exportCSVRow ⟨n, d, a⟩) = some (n, a, d) := by
  refine ⟨?_, ?_, ?_, ?_⟩
  · rw [generateCSV, joinNewline_cons, List.map_map]
    rfl
  · rw [generateCSVRow_shape]
    dsimp only
    conv_lhs => rw [← escapeQuotes_eq_self hd]
    exact parseCSVRow_three n2 d a2
  · rw [generateCSVRow_shape]
    dsimp only
    conv_lhs =>
      rw [← escapeQuotes_eq_self hd, ← escapeQuotes_eq_self hn,
        ← escapeQuotes_eq_self ha]
    exact parseCSVRow_three n d a
  · rw [exportCSVRow_shape]
    dsimp only
    conv_lhs =>
      rw [← escapeQuotes_eq_self hd, ← escapeQuotes_eq_self hn,
        ← escapeQuotes_eq_self ha]
    exact parseCSVRow_three n a d

/-- C5 witness: a record whose name and author contain double quotes
round-trips through extraction escaping plus `generateCSV`; a quote-free
record round-trips through both emitters; and the emitted header/body of
`generateCSV` decomposes as header plus newline-prefixed rows. -/
theorem claim5_amended_csv_structure_witness :
    generateCSV [⟨"fix".data, "Jan 1".data, "bob".data⟩] =
      "PR Name,Created Date,Author".data ++
        ([⟨"fix".data, "Jan 1".data, "bob".data⟩].map
          (fun pr => '\n' :: generateCSVRow pr)).flatten
    ∧ parseCSVRow (generateCSVRow
        ⟨escapeQuotes "say \"hi\"".data, "Jan 1".data, escapeQuotes "bo\"b".data⟩) =
        some ("say \"hi\"".data, "Jan 1".data, "bo\"b".data)
    ∧ parseCSVRow (generateCSVRow ⟨"fix".data, "Jan 1".data, "bob".data⟩) =
        some ("fix".data, "Jan 1".data, "bob".data)
    ∧ parseCSVRow (exportCSVRow ⟨"fix".data, "Jan 1".data, "bob".data⟩) =
        some ("fix".data, "bob".data, "Jan 1".data) :=
  claim5_amended_csv_structure [⟨"fix".data, "Jan 1".data, "bob".data⟩]
    "fix".data "Jan 1".data "bob".data "say \"hi\"".data "bo\"b".data
    (by decide) (by decide) (by decide)

theorem le_foldr_max (l : List Nat) (x : Nat) (h : x ∈ l) :
    x ≤ l.foldr max 0 := by
  induction l with
  | nil => cases h
  | cons a t ih =>
    rcases List.mem_cons.mp h with rfl | ht
    · exact le_max_left _ _
    · exact le_trans (ih ht) (le_max_right _ _)

theorem freshDictAddr_not_mem (st : ObjectStore) :
    freshDictAddr st ∉ st.dictHeap.map Prod.fst := by
  intro h
  have := le_foldr_max _ _ h
  simp only [freshDictAddr] at this
  omega

theorem lookup_cons_ne {β : Type} (l : List (Addr × β)) (k k' : Addr) (v : β)
    (h : k' ≠ k) : ((k, v) :: l).lookup k' = l.lookup k' := by
  have hb : (k' == k) = false := by simpa using h
  simp [List.lookup, hb]

theorem lookup_mutate_map_ne {β : Type} (l : List (Addr × β)) (f : β → β)
    (a b : Addr) (h : b ≠ a) :
    (l.map (fun p => if p.1 = a then (p.1, f p.2) else p)).lookup b = l.lookup b := by
  induction l with
  | nil => rfl
  | cons p t ih =>
    obtain ⟨k, v⟩ := p
    rw [List.map_cons]
    dsimp only
    by_cases hk : k = a
    · subst hk
      rw [if_pos rfl, lookup_cons_ne _ _ _ _ h, lookup_cons_ne _ _ _ _ h]
      exact ih
    · rw [if_neg hk]
      by_cases hbk : b = k
      · subst hbk
        simp [List.lookup]
      · rw [lookup_cons_ne _ _ _ _ hbk, lookup_cons_ne _ _ _ _ hbk]
        exact ih

theorem readDict_mutate_ne (st : ObjectStore) (a b : Addr) (m : TopMutation)
    (h : b ≠ a) : readDict (mutateDictAt st a m) b = readDict st b := by
  simp only [readDict, mutateDictAt]
  exact lookup_mutate_map_ne st.dictHeap (applyTopMutation m) a b h

theorem mutateDictAt_keys (st : ObjectStore) (a : Addr) (m : TopMutation) :
    (mutateDictAt st a m).dictHeap.map Prod.fst = st.dictHeap.map Prod.fst := by
  simp only [mutateDictAt, List.map_map]
  congr 1
  funext p
  by_cases hk : p.1 = a <;> simp [hk]

theorem readDict_spreadCopy_new (st : ObjectStore) (src : Addr)
    (h : src ∈ st.dictHeap.map Prod.fst) :
    readDict (spreadCopy st src).1 (spreadCopy st src).2 = readDict st src := by
  obtain ⟨d, hd⟩ := Option.isSome_iff_exists.mp (lookup_isSome_of_mem_keys h)
  simp [readDict, spreadCopy, List.lookup, hd]

theorem spreadCopy_addr_not_mem (st : ObjectStore) (src : Addr) :
    (spreadCopy st src).2 ∉ st.dictHeap.map Prod.fst :=
  freshDictAddr_not_mem st

theorem readDict_spreadCopy_old (st : ObjectStore) (src a : Addr)
    (h : a ≠ (spreadCopy st src).2) :
    readDict (spreadCopy st src).1 a = readDict st a := by
  simp only [readDict, spreadCopy]
  exact lookup_cons_ne _ _ _ _ h

/-- C10: `getConfig()` and `getAllEnvironments()` each return a fresh
top-level record (its address differs from every stored object, so
assigning or deleting keys on it changes neither the manager's stored
config record nor its environments record, and a subsequent call still
returns the original entries), while the copy's entries are identical to
the stored ones — the same property names bound to the same object
addresses, i.e. a shallow copy sharing the nested objects. -/
theorem claim10_shallow_copies (st : ObjectStore) (m : TopMutation)
    (hc : st.configObjAddr ∈ st.dictHeap.map Prod.fst)
    (he : st.envsDictAddr ∈ st.dictHeap.map Prod.fst) :
    ((getConfigOp st).2 ≠ st.configObjAddr
      ∧ (getConfigOp st).2 ≠ st.envsDictAddr
      ∧ readDict (getConfigOp st).1 (getConfigOp st).2 = readDict st st.configObjAddr
      ∧ readDict (mutateDictAt (getConfigOp st).1 (getConfigOp st).2 m)
          st.configObjAddr = readDict st st.configObjAddr
      ∧ readDict (mutateDictAt (getConfigOp st).1 (getConfigOp st).2 m)
          st.envsDictAddr = readDict st st.envsDictAddr)
    ∧ ((getAllEnvironmentsOp st).2 ≠ st.configObjAddr
      ∧ (getAllEnvironmentsOp st).2 ≠ st.envsDictAddr
      ∧ readDict (getAllEnvironmentsOp st).1 (getAllEnvironmentsOp st).2 =
          readDict st st.envsDictAddr
      ∧ readDict (mutateDictAt (getAllEnvironmentsOp st).1 (getAllEnvironmentsOp st).2 m)
          st.envsDictAddr = readDict st st.envsDictAddr
      ∧ readDict (mutateDictAt (getAllEnvironmentsOp st).1 (getAllEnvironmentsOp st).2 m)
          st.configObjAddr = readDict st st.configObjAddr
      ∧ readDict
          (getAllEnvironmentsOp
            (mutateDictAt (getAllEnvironmentsOp st).1 (getAllEnvironmentsOp st).2 m)).1
          (getAllEnvironmentsOp
            (mutateDictAt (getAllEnvironmentsOp st).1 (getAllEnvironmentsOp st).2 m)).2 =
          readDict st st.envsDictAddr) := by
  have hfc1 : (getConfigOp st).2 ≠ st.configObjAddr := by
    intro heq
    apply spreadCopy_addr_not_mem st st.configObjAddr
    rw [show (spreadCopy st st.configObjAddr).2 = (getConfigOp st).2 from rfl, heq]
    exact hc
  have hfc2 : (getConfigOp st).2 ≠ st.envsDictAddr := by
    intro heq
    apply spreadCopy_addr_not_mem st st.configObjAddr
    rw [show (spreadCopy st st.configObjAddr).2 = (getConfigOp st).2 from rfl, heq]
    exact he
  have hfe1 : (getAllEnvironmentsOp st).2 ≠ st.configObjAddr := by
    intro heq
    apply spreadCopy_addr_not_mem st st.envsDictAddr
    rw [show (spreadCopy st st.envsDictAddr).2 = (getAllEnvironmentsOp st).2 from rfl, heq]
    exact hc
  have hfe2 : (getAllEnvironmentsOp st).2 ≠ st.envsDictAddr := by
    intro heq
    apply spreadCopy_addr_not_mem st st.envsDictAddr
    rw [show (spreadCopy st st.envsDictAddr).2 = (getAllEnvironmentsOp st).2 from rfl, heq]
    exact he
  refine ⟨⟨hfc1, hfc2, readDict_spreadCopy_new st st.configObjAddr hc, ?_, ?_⟩,
    hfe1, hfe2, readDict_spreadCopy_new st st.envsDictAddr he, ?_, ?_, ?_⟩
  · rw [readDict_mutate_ne _ _ _ m (Ne.symm hfc1)]
    exact readDict_spreadCopy_old st st.configObjAddr st.configObjAddr (Ne.symm hfc1)
  · rw [readDict_mutate_ne _ _ _ m (Ne.symm hfc2)]
    exact readDict_spreadCopy_old st st.configObjAddr st.envsDictAddr (Ne.symm hfc2)
  · rw [readDict_mutate_ne _ _ _ m (Ne.symm hfe2)]
    exact readDict_spreadCopy_old st st.envsDictAddr st.envsDictAddr (Ne.symm hfe2)
  · rw [readDict_mutate_ne _ _ _ m (Ne.symm hfe1)]
    exact readDict_spreadCopy_old st st.envsDictAddr st.configObjAddr (Ne.symm hfe1)
  · have hmem2 : st.envsDictAddr ∈
        (mutateDictAt (getAllEnvironmentsOp st).1 (getAllEnvironmentsOp st).2 m).dictHeap.map
          Prod.fst := by
      rw [mutateDictAt_keys]
      show st.envsDictAddr ∈ ((spreadCopy st st.envsDictAddr).1.dictHeap.map Prod.fst)
      simp only [spreadCopy, List.map_cons]
      exact List.mem_cons_of_mem _ he
    have hsub := readDict_spreadCopy_new
      (mutateDictAt (getAllEnvironmentsOp st).1 (getAllEnvironmentsOp st).2 m)
      st.envsDictAddr hmem2
    show readDict
        (spreadCopy (mutateDictAt (getAllEnvironmentsOp st).1 (getAllEnvironmentsOp st).2 m)
          st.envsDictAddr).1
        (spreadCopy (mutateDictAt (getAllEnvironmentsOp st).1 (getAllEnvironmentsOp st).2 m)
          st.envsDictAddr).2 =
      readDict st st.envsDictAddr
    rw [hsub]
    rw [readDict_mutate_ne _ _ _ m (Ne.symm hfe2)]
    exact readDict_spreadCopy_old st st.envsDictAddr st.envsDictAddr (Ne.symm hfe2)

/-- C10 witness: on the concrete store, both copies are fresh, carry the
stored entries (hence share the nested environment addresses), and a
client-side assignment on the environments copy leaves the manager's records
and the next `getAllEnvironments` result unchanged. -/
theorem claim10_shallow_copies_witness :
    ((getConfigOp storeForCopy).2 ≠ storeForCopy.configObjAddr
      ∧ (getConfigOp storeForCopy).2 ≠ storeForCopy.envsDictAddr
      ∧ readDict (getConfigOp storeForCopy).1 (getConfigOp storeForCopy).2 =
          readDict storeForCopy storeForCopy.configObjAddr
      ∧ readDict (mutateDictAt (getConfigOp storeForCopy).1 (getConfigOp storeForCopy).2
            extraMutation) storeForCopy.configObjAddr =
          readDict storeForCopy storeForCopy.configObjAddr
      ∧ readDict (mutateDictAt (getConfigOp storeForCopy).1 (getConfigOp storeForCopy).2
            extraMutation) storeForCopy.envsDictAddr =
          readDict storeForCopy storeForCopy.envsDictAddr)
    ∧ ((getAllEnvironmentsOp storeForCopy).2 ≠ storeForCopy.configObjAddr
      ∧ (getAllEnvironmentsOp storeForCopy).2 ≠ storeForCopy.envsDictAddr
      ∧ readDict (getAllEnvironmentsOp storeForCopy).1
          (getAllEnvironmentsOp storeForCopy).2 =
          readDict storeForCopy storeForCopy.envsDictAddr
      ∧ readDict (mutateDictAt (getAllEnvironmentsOp storeForCopy).1
            (getAllEnvironmentsOp storeForCopy).2 extraMutation)
          storeForCopy.envsDictAddr =
          readDict storeForCopy storeForCopy.envsDictAddr
      ∧ readDict (mutateDictAt (getAllEnvironmentsOp storeForCopy).1
            (getAllEnvironmentsOp storeForCopy).2 extraMutation)
          storeForCopy.configObjAddr =
          readDict storeForCopy storeForCopy.configObjAddr
      ∧ readDict
          (getAllEnvironmentsOp
            (mutateDictAt (getAllEnvironmentsOp storeForCopy).1
              (getAllEnvironmentsOp storeForCopy).2 extraMutation)).1
          (getAllEnvironmentsOp
            (mutateDictAt (getAllEnvironmentsOp storeForCopy).1
              (getAllEnvironmentsOp storeForCopy).2 extraMutation)).2 =
          readDict storeForCopy storeForCopy.envsDictAddr) :=
  claim10_shallow_copies storeForCopy extraMutation (by decide) (by decide)
